import Mathlib

/-!
# Tomodachi messenger: verification of the chat/presence view-model logic

Shallow embedding of the chat-list sorting, user search, unread-badge,
date-separator, presence-write and message-send logic of the Tomodachi
messaging client, together with theorems checking the specification's
claims against it.

Conventions of the embedding:
* Firestore documents are Lean structures; an `Option` field models a
  possibly-absent document field.
* A dynamically-typed timestamp field (`any` in the source: either a
  platform `Timestamp` object carrying `toDate()`, an ISO-8601 string, a
  JS `Date`, or absent) is the tagged union `TSVal`, carrying the epoch
  milliseconds its resolution would produce.
* `Array.prototype.sort(cmp)` (stable since ES2019) is modelled by
  `List.insertionSort r` with `r a b := cmp a b ≤ 0`; a stable sort is
  uniquely determined by the comparator, so this is faithful.
* String comparison done by the platform (Firestore range queries) is
  modelled by `strLe`, lexicographic comparison of the code points, which
  agrees with the platform's UTF-8 ordering on the ASCII usernames the
  app produces.
-/

namespace Tomodachi

/-! ## Timestamp values -/

/-- A dynamically-typed timestamp field: a platform timestamp object
(`server`, has a `toDate()` method), an ISO-8601 string (`iso`), a JS
`Date` object (`jsdate`), or an absent field. Each resolvable form
carries the epoch milliseconds its resolution yields. -/
inductive TSVal
  | server (ms : Int)
  | iso (ms : Int)
  | jsdate (ms : Int)
  | absent
deriving DecidableEq, Repr

/-- `x?.toDate?.() || new Date(x || 0)` — the timestamp resolution used by
the Sidebar chat sort: platform timestamps via `toDate()`, strings/dates
via the `Date` constructor, an absent field as epoch 0. -/
def TSVal.resolveOr0 : TSVal → Int
  | .server ms => ms
  | .iso ms => ms
  | .jsdate ms => ms
  | .absent => 0

/-- `x?.toDate?.() || new Date(x)` — the timestamp resolution used on
messages. An absent field yields an invalid date (`none`). -/
def TSVal.resolveMs : TSVal → Option Int
  | .server ms => some ms
  | .iso ms => some ms
  | .jsdate ms => some ms
  | .absent => none

/-! ## String helpers

`String.<` does not reduce in the kernel, so the platform's string
ordering, JS `includes`, `indexOf`, `toLowerCase` and `trim` are embedded
as executable functions over the code-point lists. -/

/-- Lexicographic less-or-equal on code-point lists. -/
def lexLe : List Char → List Char → Bool
  | [], _ => true
  | _ :: _, [] => false
  | a :: as, b :: bs =>
    if a.toNat < b.toNat then true
    else if b.toNat < a.toNat then false
    else lexLe as bs

/-- The platform's ordering on string field values. -/
def strLe (a b : String) : Bool := lexLe a.data b.data

/-- Index of the first occurrence of `needle` in `hay`, `none` when there
is no occurrence: JS `hay.indexOf(needle)` with `-1` mapped to `none`. -/
def idxOfSub (needle : List Char) : List Char → Option Nat
  | [] => if needle = [] then some 0 else none
  | c :: rest =>
    if needle.isPrefixOf (c :: rest) then some 0
    else (idxOfSub needle rest).map (· + 1)

/-- JS `hay.includes(needle)`. -/
def strContainsSub (needle hay : String) : Bool :=
  (idxOfSub needle.data hay.data).isSome

/-- ASCII lower-casing of one character (JS `toLowerCase` on the
character sets the app uses). -/
def lowerChar (c : Char) : Char :=
  if 65 ≤ c.toNat ∧ c.toNat ≤ 90 then Char.ofNat (c.toNat + 32) else c

/-- JS `s.toLowerCase()`. -/
def strLower (s : String) : String := ⟨s.data.map lowerChar⟩

/-- A whitespace character as JS `trim` removes (the forms occurring in
chat input). -/
def wsChar (c : Char) : Bool :=
  c.toNat = 32 ∨ c.toNat = 9 ∨ c.toNat = 10 ∨ c.toNat = 13

/-- JS `s.trim()`. -/
def strTrim (s : String) : String :=
  ⟨((s.data.dropWhile wsChar).reverse.dropWhile wsChar).reverse⟩

/-! ## Chat documents and the sidebar chat list (Sidebar, onSnapshot chats callback)

`Chat` documents carry `participants`, `createdAt`, `updatedAt` and a
denormalized `lastMessage` snapshot. The Sidebar rebuilds its list from
every snapshot and sorts it in memory by `updatedAt` descending. -/

/-- The denormalized `lastMessage` snapshot stored on a chat document. -/
structure LastMsg where
  text : String
  senderId : String
  timestamp : TSVal
  read : Bool
deriving DecidableEq, Repr

/-- A `chats` collection document, with the store-assigned document id
spread in (`{ ...chatData, id: doc.id }`). -/
structure ChatDoc where
  id : String
  participants : List String
  createdAt : TSVal
  updatedAt : TSVal
  lastMessage : Option LastMsg
deriving DecidableEq, Repr

/-- `a.updatedAt?.toDate?.() || new Date(a.updatedAt || 0)` then
`.getTime()`: the recency key of a chat in the Sidebar sort. -/
def chatUpdatedMs (c : ChatDoc) : Int := c.updatedAt.resolveOr0

/-- The Sidebar sort comparator `(a, b) => timeB.getTime() - timeA.getTime()`
as the relation "`a` may precede `b`", i.e. the comparator is `≤ 0`. -/
def chatRecency (a b : ChatDoc) : Prop := chatUpdatedMs b ≤ chatUpdatedMs a

instance : DecidableRel chatRecency :=
  fun a b => inferInstanceAs (Decidable (chatUpdatedMs b ≤ chatUpdatedMs a))

instance : IsTotal ChatDoc chatRecency :=
  ⟨fun a b => Int.le_total (chatUpdatedMs b) (chatUpdatedMs a)⟩

instance : IsTrans ChatDoc chatRecency :=
  ⟨fun _ _ _ h1 h2 => le_trans h2 h1⟩

/-- `chatsList.sort((a, b) => timeB.getTime() - timeA.getTime())`:
the stable sort of the snapshot's chats, most recent first. -/
def sortChatsByRecency (l : List ChatDoc) : List ChatDoc :=
  List.insertionSort chatRecency l

/-- The chat list the Sidebar snapshot callback installs with `setChats`:
the snapshot's documents (id spread in), sorted by recency. The local
list is fully replaced, so the output depends only on the snapshot. -/
def chatsSnapshotList (docs : List ChatDoc) : List ChatDoc :=
  sortChatsByRecency docs

/-- `chatData.participants.find(id => id !== currentUser.uid)`. -/
def chatRecipient (uid : String) (c : ChatDoc) : Option String :=
  c.participants.find? (fun p => p ≠ uid)

/-- The set of distinct recipient ids the snapshot callback collects
(`recipientIds`, a `Set` filled in document order). -/
def chatsSnapshotRecipients (uid : String) (docs : List ChatDoc) : List String :=
  (docs.filterMap (chatRecipient uid)).dedup

/-- A concrete three-chat snapshot for the `[T-3, T-1, T-2]` ordering
example (`T = 1000000`), mixing a platform-timestamp `updatedAt` with
ISO-string ones. -/
def exampleChats : List ChatDoc :=
  [⟨"c3", ["me", "u3"], .absent, .iso 999997, none⟩,
   ⟨"c1", ["me", "u1"], .absent, .server 999999, none⟩,
   ⟨"c2", ["me", "u2"], .absent, .iso 999998, none⟩]

/-! ## Unread badge (Sidebar chat rows) -/

/-- The `invisible` condition of the per-chat unread dot:
`!chat.lastMessage || chat.lastMessage.senderId === currentUser?.uid || chat.lastMessage.read`.
`currentUser?.uid` is `none` when no user is signed in, and `senderId === undefined`
is false. -/
def unreadBadgeInvisible (uid : Option String) (c : ChatDoc) : Bool :=
  match c.lastMessage with
  | none => true
  | some lm => (some lm.senderId == uid) || lm.read

/-- The unread dot is shown exactly when it is not invisible. -/
def unreadBadgeVisible (uid : Option String) (c : ChatDoc) : Bool :=
  !(unreadBadgeInvisible uid c)

/-- The recipient-side `read: true` write applied to the denormalized
`lastMessage` of a chat document. -/
def markLastMessageRead (c : ChatDoc) : ChatDoc :=
  { c with lastMessage := c.lastMessage.map (fun lm => { lm with read := true }) }

/-- Apply the `read: true` flip to the one chat document it targets. -/
def flipReadIfId (target : String) (c : ChatDoc) : ChatDoc :=
  if c.id = target then markLastMessageRead c else c

/-! ## Presence writes (AuthContext, setOnlineStatus) -/

/-- A `users` collection document as the presence logic sees it. -/
structure ProfileDoc where
  username : String
  displayName : String
  photoURL : String
  bio : String
  isOnline : Bool
  lastSeen : Option TSVal
deriving DecidableEq, Repr

/-- `setOnlineStatus(online)`:
`updateDoc(userRef, { isOnline: online, ...(online ? {} : { lastSeen: new Date().toISOString() }) })`
applied to the user's profile document; `nowMs` is the time the ISO
string encodes. -/
def setOnlineStatusApply (online : Bool) (nowMs : Int) (p : ProfileDoc) : ProfileDoc :=
  if online then { p with isOnline := true }
  else { p with isOnline := false, lastSeen := some (.iso nowMs) }

/-- The triggers that call `setOnlineStatus` in the AuthContext effect,
with the argument each passes: session start, the 60-second heartbeat
interval and the visibility handler pass `true`; the `beforeunload`
handler and the effect cleanup on session end pass `false`. -/
inductive PresenceEvent
  | sessionStart
  | heartbeat
  | tabVisible
  | beforeUnload
  | sessionEnd
deriving DecidableEq, Repr

/-- The `online` argument `setOnlineStatus` receives for each trigger. -/
def presenceOnlineArg : PresenceEvent → Bool
  | .sessionStart => true
  | .heartbeat => true
  | .tabVisible => true
  | .beforeUnload => false
  | .sessionEnd => false

/-! ## Message snapshots and read receipts (ChatWindow, onSnapshot messages callback) -/

/-- A message sub-collection document as delivered by a snapshot:
`read` may be absent (`data.read || false` in the reader). -/
structure MsgDoc where
  id : String
  senderId : String
  text : String
  timestamp : TSVal
  readField : Option Bool
deriving DecidableEq, Repr

/-- The local message record the ChatWindow keeps in its state. -/
structure Message where
  id : String
  senderId : String
  text : String
  timestamp : TSVal
  read : Bool
deriving DecidableEq, Repr

/-- The record pushed into `loadedMessages` for one snapshot document. -/
def msgOfDoc (d : MsgDoc) : Message :=
  ⟨d.id, d.senderId, d.text, d.timestamp, d.readField.getD false⟩

/-- `currentUser && data.senderId !== currentUser.uid && !data.read`:
the guard under which the snapshot callback issues the `read: true`
write for a document. -/
def shouldMarkRead (uid : Option String) (d : MsgDoc) : Bool :=
  match uid with
  | none => false
  | some u => decide (d.senderId ≠ u) && !(d.readField.getD false)

/-- One run of the messages `onSnapshot` callback: the `forEach` over the
snapshot's documents builds `loadedMessages` and, for each document
passing the mark-read guard, issues one fire-and-forget
`updateDoc(doc.ref, { read: true })`. Returns the loaded list and the
ids of the documents written, in issue order. The callback neither
awaits the writes nor branches on their outcome, so its outputs do not
depend on whether any of those writes later fails. -/
def messagesSnapshotStep (uid : Option String) (docs : List MsgDoc) :
    List Message × List String :=
  docs.foldl
    (fun acc d =>
      (acc.1 ++ [msgOfDoc d],
       if shouldMarkRead uid d then acc.2 ++ [d.id] else acc.2))
    ([], [])

/-! ## Date separators (ChatWindow, shouldShowDateSeparator) -/

/-- The calendar day of an epoch-millisecond instant (floor division by
the day length; the renderer's `isSameDay` compares the calendar
components of the two resolved dates, which agrees with equality of
these day numbers). -/
def dayFromMs (ms : Int) : Int := ms / 86400000

/-- `isSameDay` on two resolved timestamps; an unresolvable timestamp
(invalid date) compares unequal to everything, as NaN does. -/
def isSameDayOpt : Option Int → Option Int → Bool
  | some a, some b => dayFromMs a = dayFromMs b
  | _, _ => false

/-- The resolved calendar day of a message
(`message.timestamp?.toDate?.() || new Date(message.timestamp)`). -/
def msgDay (m : Message) : Option Int := m.timestamp.resolveMs.map dayFromMs

/-- `shouldShowDateSeparator(message, index)`: true at index 0, else
true iff the message's resolved date is not the same calendar day as
the previous message's. -/
def shouldShowDateSeparator (msgs : List Message) (i : Nat) (hi : i < msgs.length) : Bool :=
  if i = 0 then true
  else
    !(isSameDayOpt (msgs.get ⟨i, hi⟩).timestamp.resolveMs
        (msgs.get ⟨i - 1, by omega⟩).timestamp.resolveMs)

/-- The separator flag of every index of a message list, in order. -/
def sepFlags (msgs : List Message) : List Bool :=
  (List.finRange msgs.length).map
    (fun i : Fin msgs.length => shouldShowDateSeparator msgs i.val i.isLt)

/-- The ascending-resolved-timestamp hypothesis on a message list:
adjacent messages both resolve and do so in non-decreasing order. -/
def AscendingTimestamps (msgs : List Message) : Prop :=
  msgs.Chain' (fun a b => ∃ x y, a.timestamp.resolveMs = some x
    ∧ b.timestamp.resolveMs = some y ∧ x ≤ y)

/-- A concrete sequence spanning two calendar days: two messages on day
0, then one on day 1 (mixed timestamp forms). -/
def exampleMsgs : List Message :=
  [⟨"m1", "u1", "hi", .server 100, true⟩,
   ⟨"m2", "u2", "hey", .server 2000, true⟩,
   ⟨"m3", "u1", "bye", .iso 86400050, true⟩]

/-! ## User search (Sidebar, handleSearch) -/

/-- A `users` collection document as the search reads it: `displayName`,
`originalUsername` and `isOnline` may be absent. -/
structure UserDoc where
  id : String
  username : String
  displayName : Option String
  originalUsername : Option String
  photoURL : String
  isOnline : Option Bool
deriving DecidableEq, Repr

/-- A search result row (`UserSearchResult`). -/
structure UserSearchResult where
  uid : String
  username : String
  displayName : String
  photoURL : String
  isOnline : Bool
deriving DecidableEq, Repr

/-- The result built from a matching document:
`{ uid: doc.id, username: originalUsername || username,
   displayName: displayName || username, photoURL, isOnline: isOnline || false }`. -/
def mkSearchResult (d : UserDoc) : UserSearchResult :=
  ⟨d.id, d.originalUsername.getD d.username, d.displayName.getD d.username,
   d.photoURL, d.isOnline.getD false⟩

/-- The store's ordering of the `username` field, used to deliver the
range query's results. -/
def usernameOrd (a b : UserDoc) : Prop := strLe a.username b.username = true

instance : DecidableRel usernameOrd :=
  fun a b => inferInstanceAs (Decidable (strLe a.username b.username = true))

/-- The primary query
`query(collection('users'), where('username', '>=', ql), limit(10))`:
the platform returns the documents whose `username` is at least `ql`,
ordered by `username`, capped at 10. -/
def usernameGeQuery (ql : String) (store : List UserDoc) : List UserDoc :=
  (List.insertionSort usernameOrd (store.filter (fun d => strLe ql d.username))).take 10

/-- The primary pass over the fetched snapshot: keep a document iff its
id differs from the signed-in user and its `username` contains the
normalized query, pushing `mkSearchResult` rows in snapshot order. -/
def primaryPass (uid ql : String) (store : List UserDoc) : List UserSearchResult :=
  (usernameGeQuery ql store).foldl
    (fun results d =>
      if decide (d.id ≠ uid) && strContainsSub ql d.username
      then results ++ [mkSearchResult d]
      else results)
    []

/-- The fallback match: `(userData.displayName &&
userData.displayName.toLowerCase().includes(ql)) || userData.username.includes(ql)`. -/
def fallbackMatch (ql : String) (d : UserDoc) : Bool :=
  (match d.displayName with
   | some dn => strContainsSub ql (strLower dn)
   | none => false)
  || strContainsSub ql d.username

/-- The fallback pass, run only when the primary pass produced zero
results: an unfiltered `limit(20)` page (the store's first 20 documents
in document order), matched client-side against `displayName` or
`username` case-insensitively, de-duplicated against already-collected
ids. -/
def fallbackPass (uid ql : String) (store : List UserDoc)
    (results : List UserSearchResult) : List UserSearchResult :=
  if results.length = 0 then
    (store.take 20).foldl
      (fun rs d =>
        if decide (d.id ≠ uid) && fallbackMatch ql d
            && !(rs.any (fun r => r.uid == d.id))
        then rs ++ [mkSearchResult d]
        else rs)
      results
  else results

/-- `a.username.toLowerCase().indexOf(ql)`, `none` standing for the
comparator's `Infinity` branch (no occurrence). -/
def matchIdxLower (ql : String) (r : UserSearchResult) : Option Nat :=
  idxOfSub ql.data (strLower r.username).data

/-- Order on match indices with `none` as `Infinity`; the comparator's
`Infinity - Infinity` is `NaN`, which the sort treats as a tie, so
`none ≤ none` holds. -/
def optIdxLe : Option Nat → Option Nat → Bool
  | _, none => true
  | none, some _ => false
  | some i, some j => decide (i ≤ j)

/-- The ranking comparator as the relation "`a` may precede `b`"
(comparator value `≤ 0`): online users first, then ascending first-match
index. -/
def searchCmpLe (ql : String) (a b : UserSearchResult) : Bool :=
  if a.isOnline && !b.isOnline then true
  else if !a.isOnline && b.isOnline then false
  else optIdxLe (matchIdxLower ql a) (matchIdxLower ql b)

/-- `searchCmpLe` as a `Prop` relation for the stable sort. -/
def searchRel (ql : String) (a b : UserSearchResult) : Prop :=
  searchCmpLe ql a b = true

instance (ql : String) : DecidableRel (searchRel ql) :=
  fun a b => inferInstanceAs (Decidable (searchCmpLe ql a b = true))

/-- `results.sort(comparator)`: the stable ranking sort. -/
def rankResults (ql : String) (l : List UserSearchResult) : List UserSearchResult :=
  List.insertionSort (searchRel ql) l

/-- The full `handleSearch` pipeline: normalize the query to lowercase,
run the primary pass over the capped range query, broaden through the
fallback pass only when it found nothing, and rank. -/
def handleSearch (uid q : String) (store : List UserDoc) : List UserSearchResult :=
  rankResults (strLower q) (fallbackPass uid (strLower q) store
    (primaryPass uid (strLower q) store))

/-- The ranking key of a result: online-state first (online is `0`),
then the first-match index (`none` = no match = last). -/
def searchKey (ql : String) (r : UserSearchResult) : Nat × Option Nat :=
  (if r.isOnline then 0 else 1, matchIdxLower ql r)

/-- Lexicographic order on ranking keys. -/
def searchKeyLe (x y : Nat × Option Nat) : Prop :=
  x.1 < y.1 ∨ (x.1 = y.1 ∧ optIdxLe x.2 y.2 = true)

instance (ql : String) : IsTotal UserSearchResult (searchRel ql) := ⟨by
  intro a b
  unfold searchRel searchCmpLe
  cases ha : a.isOnline <;> cases hb : b.isOnline <;>
    cases hia : matchIdxLower ql a <;> cases hib : matchIdxLower ql b <;>
      simp_all [optIdxLe] <;> omega⟩

instance (ql : String) : IsTrans UserSearchResult (searchRel ql) := ⟨by
  intro a b c hab hbc
  unfold searchRel searchCmpLe at hab hbc ⊢
  cases ha : a.isOnline <;> cases hb : b.isOnline <;> cases hc : c.isOnline <;>
    cases hia : matchIdxLower ql a <;> cases hib : matchIdxLower ql b <;>
      cases hic : matchIdxLower ql c <;>
        simp_all [optIdxLe] <;> omega⟩

/-- The store used by the search examples: four users with usernames
`anna`, `anne`, `banner`, `zane`, all offline. -/
def demoUsers : List UserDoc :=
  [⟨"u-anna", "anna", some "Anna", none, "", none⟩,
   ⟨"u-anne", "anne", some "Anne", none, "", some false⟩,
   ⟨"u-banner", "banner", some "Banner", none, "", none⟩,
   ⟨"u-zane", "zane", some "Zane", none, "", some false⟩]

/-- The ranking example: online and offline users with different
first-match positions for the query `ann`, including an arrival-order
tie between `anne` and `annex`. -/
def rankExample : List UserSearchResult :=
  [⟨"r1", "anne", "Anne", "", false⟩,
   ⟨"r2", "banner", "Banner", "", true⟩,
   ⟨"r3", "anna", "Anna", "", true⟩,
   ⟨"r4", "annex", "Annex", "", false⟩]

/-! ## Sending a message (ChatWindow, handleSend)

`handleSend` validates, clears the input, raises `isSending`, creates
the parent chat when its `chatId` prop is null (unconditionally — no
lookup), inserts an optimistic temporary message, performs the message
`addDoc` and the parent-chat `updateDoc`, and on success or failure
removes the temporary message (restoring the input text on failure),
finally lowering `isSending`. The embedding returns every successive
component state and the backend writes that succeeded; `failAt`
selects which attempted backend call (0-based, in attempt order)
fails, `none` meaning none fails. -/

/-- The ChatWindow state `handleSend` reads and writes. -/
structure ChatWinState where
  messages : List Message
  newMessage : String
  isSending : Bool
deriving DecidableEq, Repr

/-- The props and ambient values of one `handleSend` invocation:
the `chatId`/`recipientId` props, the signed-in user, `Date.now()`,
and the id the store would assign to a newly created chat. -/
structure SendEnv where
  chatId : Option String
  recipientId : Option String
  currentUser : Option String
  now : Int
  newChatId : String
deriving DecidableEq, Repr

/-- A successful backend write performed by `handleSend`, in order. -/
inductive StoreOp
  | createChat (id : String) (participants : List String)
  | addMessage (chatId senderId text : String)
  | setLastMessage (chatId text senderId : String)
deriving DecidableEq, Repr

/-- The outcome of one `handleSend` invocation: the successive
component states (one per state update, in order) and the backend
writes that succeeded. -/
structure SendResult where
  states : List ChatWinState
  ops : List StoreOp
deriving DecidableEq, Repr

/-- The component state after the invocation: the last state update,
or the entry state when no update happened. -/
def SendResult.final (st : ChatWinState) (r : SendResult) : ChatWinState :=
  r.states.getLast?.getD st

/-- `'temp-' + Date.now()`. -/
def tempMsgId (now : Int) : String := "temp-" ++ toString now

/-- The optimistic message: client-generated id, client-side `Date`
timestamp, `read: false`. -/
def optimisticMessage (u text : String) (now : Int) : Message :=
  ⟨tempMsgId now, u, text, .jsdate now, false⟩

/-- `prev => [...prev, optimisticMessage]`: the optimistic insert. -/
def sentMessages (u messageText : String) (now : Int) (ms : List Message) : List Message :=
  ms ++ [optimisticMessage u messageText now]

/-- `prev => prev.filter(msg => msg.id !== optimisticMessage.id)`: the
removal of the optimistic message, used by both the success path and the
catch path (the optimistic message's id is `tempMsgId now`). -/
def revertMessages (u messageText : String) (now : Int) (ms : List Message) : List Message :=
  (sentMessages u messageText now ms).filter
    (fun m => decide (m.id ≠ (optimisticMessage u messageText now).id))

/-- The send from the point where an active chat id is known:
optimistic insert, the message `addDoc` (fails when `failAt = some 0`),
the parent-chat `updateDoc` of `lastMessage`/`updatedAt` (fails when
`failAt = some 1`); the catch path removes the temporary message and
restores the input text, the success path removes the temporary
message; `finally` lowers `isSending`. `st1`/`st2` are the states the
caller already produced (input cleared, `isSending` raised). -/
def handleSendCore (u messageText : String) (now : Int) (st1 st2 : ChatWinState)
    (cid : String) (created : List StoreOp) (failAt : Option Nat) : SendResult :=
  if failAt = some 0 then
    ⟨[st1, st2,
      { st2 with messages := sentMessages u messageText now st2.messages },
      { st2 with messages := revertMessages u messageText now st2.messages },
      { st2 with
        messages := revertMessages u messageText now st2.messages
        newMessage := messageText },
      { st2 with
        messages := revertMessages u messageText now st2.messages
        newMessage := messageText
        isSending := false }],
     created⟩
  else if failAt = some 1 then
    ⟨[st1, st2,
      { st2 with messages := sentMessages u messageText now st2.messages },
      { st2 with messages := revertMessages u messageText now st2.messages },
      { st2 with
        messages := revertMessages u messageText now st2.messages
        newMessage := messageText },
      { st2 with
        messages := revertMessages u messageText now st2.messages
        newMessage := messageText
        isSending := false }],
     created ++ [StoreOp.addMessage cid u messageText]⟩
  else
    ⟨[st1, st2,
      { st2 with messages := sentMessages u messageText now st2.messages },
      { st2 with messages := revertMessages u messageText now st2.messages },
      { st2 with
        messages := revertMessages u messageText now st2.messages
        isSending := false }],
     created ++ [StoreOp.addMessage cid u messageText,
       StoreOp.setLastMessage cid messageText u]⟩

/-- One `handleSend` invocation. Guard:
`if (!newMessage.trim() || !currentUser || isSending) return;`. With a
null `chatId` prop and a recipient, the chat is created first (a plain
`addDoc` — no lookup; fails when `failAt = some 0`, in which case the
catch path runs before the optimistic insert) and its id adopted for
this invocation only; with neither prop the `try` body returns after
clearing the input, `finally` lowering `isSending`. -/
def handleSend (env : SendEnv) (failAt : Option Nat) (st : ChatWinState) : SendResult :=
  match env.currentUser with
  | none => ⟨[], []⟩
  | some u =>
    if strTrim st.newMessage = "" ∨ st.isSending = true then ⟨[], []⟩
    else
      match env.chatId with
      | some cid =>
          handleSendCore u (strTrim st.newMessage) env.now
            { st with newMessage := "" } { st with newMessage := "", isSending := true }
            cid [] failAt
      | none =>
        match env.recipientId with
        | some rid =>
          if failAt = some 0 then
            ⟨[{ st with newMessage := "" },
              { st with newMessage := "", isSending := true },
              { st with
                messages := st.messages.filter
                  (fun m => decide (m.id ≠ tempMsgId env.now))
                newMessage := ""
                isSending := true },
              { st with
                messages := st.messages.filter
                  (fun m => decide (m.id ≠ tempMsgId env.now))
                newMessage := strTrim st.newMessage
                isSending := true },
              { st with
                messages := st.messages.filter
                  (fun m => decide (m.id ≠ tempMsgId env.now))
                newMessage := strTrim st.newMessage
                isSending := false }],
             []⟩
          else
            handleSendCore u (strTrim st.newMessage) env.now
              { st with newMessage := "" } { st with newMessage := "", isSending := true }
              env.newChatId [StoreOp.createChat env.newChatId [u, rid]]
              (failAt.map (· - 1))
        | none =>
          ⟨[{ st with newMessage := "" },
            { st with newMessage := "", isSending := true },
            { st with newMessage := "", isSending := false }], []⟩

/-- A message whose id carries the optimistic `temp-` prefix. -/
def isTempMsg (m : Message) : Bool := "temp-".data.isPrefixOf m.id.data

/-- `createOrGetChat(currentUserId, otherUserId)` from the user service:
query the chats containing `me`, reuse the first whose participants
include `other`, otherwise `setDoc` a fresh chat document (participants
`[me, other]`, null `lastMessage`, ISO timestamps; the service's
`lastMessageTime: null` field has no counterpart on `ChatDoc` and is
dropped). Returns the chat id and the resulting store. -/
def createOrGetChat (me other : String) (store : List ChatDoc)
    (freshId : String) (nowMs : Int) : String × List ChatDoc :=
  match (store.filter (fun c => decide (me ∈ c.participants))).find?
      (fun c => decide (other ∈ c.participants)) with
  | some existing => (existing.id, store)
  | none => (freshId, store ++ [⟨freshId, [me, other], .iso nowMs, .iso nowMs, none⟩])

/-- The two sends of the duplicate-chat scenario: the signed-in user
`A` has selected `B` from a search with no existing chat, so the
window's `chatId` prop is null; `A` sends `hi`, and — nothing writing
the created chat id back into the prop — sends `again`. Both backends
succeed (`failAt = none`); the store assigns ids `chat1` and `chat2`. -/
def dupFirstSend : SendResult :=
  handleSend ⟨none, some "B", some "A", 1, "chat1"⟩ none ⟨[], "hi", false⟩

/-- The window state before the second send: the state the first send
left, with `again` typed into the input. -/
def dupSecondState : ChatWinState :=
  { dupFirstSend.final ⟨[], "hi", false⟩ with newMessage := "again" }

/-- The second send of the duplicate-chat scenario. -/
def dupSecondSend : SendResult :=
  handleSend ⟨none, some "B", some "A", 2, "chat2"⟩ none dupSecondState

/-- A chat-creation write for the unordered pair `{a, b}`. -/
def isCreateForPair (a b : String) : StoreOp → Bool
  | .createChat _ ps => decide (a ∈ ps) && decide (b ∈ ps)
  | _ => false

/-! ## Verification of the claims -/

/-- C2. On every chat snapshot the displayed list is rebuilt from the
snapshot's documents (a permutation of them, depending on nothing else)
and sorted descending by the resolved `updatedAt` — strictly descending
whenever the resolved times are pairwise distinct — where resolution
accepts both a platform timestamp and an ISO string; on chats with
`updatedAt = [T-3, T-1, T-2]` (mixed representations) the resulting
order is `[T-1, T-2, T-3]`. -/
theorem chatList_sort_spec :
    (∀ docs : List ChatDoc, List.Perm (chatsSnapshotList docs) docs)
  ∧ (∀ docs : List ChatDoc,
       (chatsSnapshotList docs).Sorted (fun a b => chatUpdatedMs b ≤ chatUpdatedMs a))
  ∧ (∀ docs : List ChatDoc,
       docs.Pairwise (fun a b => chatUpdatedMs a ≠ chatUpdatedMs b) →
       (chatsSnapshotList docs).Sorted (fun a b => chatUpdatedMs b < chatUpdatedMs a))
  ∧ (chatsSnapshotList exampleChats).map ChatDoc.id = ["c1", "c2", "c3"] := by
  refine ⟨fun docs => List.perm_insertionSort chatRecency docs,
    fun docs => List.sorted_insertionSort chatRecency docs,
    fun docs h => ?_, by decide⟩
  have hperm : List.Perm (chatsSnapshotList docs) docs :=
    List.perm_insertionSort chatRecency docs
  have hne : (chatsSnapshotList docs).Pairwise
      (fun a b => chatUpdatedMs a ≠ chatUpdatedMs b) :=
    (hperm.pairwise_iff fun hab => hab.symm).mpr h
  have hle : (chatsSnapshotList docs).Sorted chatRecency :=
    List.sorted_insertionSort chatRecency docs
  exact (hle.and hne).imp fun hab => lt_of_le_of_ne hab.1 hab.2.symm

/-- Witness for `chatList_sort_spec`: its strict-descending conjunct
applied to the concrete snapshot, whose resolved times are pairwise
distinct. -/
theorem chatList_sort_spec_witness :
    exampleChats.Pairwise (fun a b => chatUpdatedMs a ≠ chatUpdatedMs b)
  ∧ (chatsSnapshotList exampleChats).Sorted
      (fun a b => chatUpdatedMs b < chatUpdatedMs a) :=
  ⟨by decide, chatList_sort_spec.2.2.1 exampleChats (by decide)⟩

/-- C7. The unread dot of a chat row is shown iff `lastMessage` exists,
its `senderId` differs from the signed-in user, and its `read` flag is
false; after flipping `read` to true the dot is gone, and the flip does
not reorder the sorted chat list (the id sequence is unchanged, because
the sort key `updatedAt` is untouched). -/
theorem unreadBadge_spec :
    (∀ (uid : String) (c : ChatDoc),
       unreadBadgeVisible (some uid) c = true ↔
         ∃ lm, c.lastMessage = some lm ∧ lm.senderId ≠ uid ∧ lm.read = false)
  ∧ (∀ (uid : Option String) (c : ChatDoc),
       unreadBadgeVisible uid (markLastMessageRead c) = false)
  ∧ (∀ (target : String) (docs : List ChatDoc),
       (chatsSnapshotList (docs.map (flipReadIfId target))).map ChatDoc.id
         = (chatsSnapshotList docs).map ChatDoc.id) := by
  refine ⟨fun uid c => ?_, fun uid c => ?_, fun target docs => ?_⟩
  · cases hc : c.lastMessage with
    | none => simp [unreadBadgeVisible, unreadBadgeInvisible, hc]
    | some lm =>
      simp only [unreadBadgeVisible, unreadBadgeInvisible, hc]
      constructor
      · intro h
        refine ⟨lm, rfl, ?_, ?_⟩
        · intro he
          simp [he] at h
        · cases hr : lm.read
          · rfl
          · simp [hr] at h
      · rintro ⟨lm', hlm', hs, hr⟩
        cases hlm'
        simp [hs, hr]
  · cases hc : c.lastMessage with
    | none => simp [unreadBadgeVisible, unreadBadgeInvisible, markLastMessageRead, hc]
    | some lm => simp [unreadBadgeVisible, unreadBadgeInvisible, markLastMessageRead, hc]
  · have hms : ∀ c, chatUpdatedMs (flipReadIfId target c) = chatUpdatedMs c := by
      intro c
      unfold flipReadIfId markLastMessageRead chatUpdatedMs
      split <;> rfl
    have hmap :
        (chatsSnapshotList docs).map (flipReadIfId target)
          = chatsSnapshotList (docs.map (flipReadIfId target)) := by
      unfold chatsSnapshotList sortChatsByRecency
      exact List.map_insertionSort chatRecency chatRecency (flipReadIfId target) docs
        (fun a _ b _ => by simp [chatRecency, hms])
    have hid : ∀ c, (flipReadIfId target c).id = c.id := by
      intro c
      unfold flipReadIfId markLastMessageRead
      split <;> rfl
    calc (chatsSnapshotList (docs.map (flipReadIfId target))).map ChatDoc.id
        = ((chatsSnapshotList docs).map (flipReadIfId target)).map ChatDoc.id := by
          rw [hmap]
      _ = (chatsSnapshotList docs).map ChatDoc.id := by
          rw [List.map_map]
          exact List.map_congr_left (fun c _ => hid c)

/-- C9. Every presence write triggered while the session is live
(session start, heartbeat, tab becoming visible) passes `online = true`
and then sets only `isOnline`, leaving `lastSeen` and every profile
field unchanged; the unload/session-end writes pass `online = false` and
set `isOnline := false` together with `lastSeen := now` — so `lastSeen`
is written only on an offline transition. -/
theorem presenceWrite_spec :
    (∀ (e : PresenceEvent) (p : ProfileDoc) (nowMs : Int),
       presenceOnlineArg e = true →
         setOnlineStatusApply (presenceOnlineArg e) nowMs p
           = { p with isOnline := true })
  ∧ (∀ (e : PresenceEvent) (p : ProfileDoc) (nowMs : Int),
       presenceOnlineArg e = false →
         setOnlineStatusApply (presenceOnlineArg e) nowMs p
           = { p with isOnline := false, lastSeen := some (.iso nowMs) })
  ∧ (∀ (p : ProfileDoc) (nowMs : Int),
       (setOnlineStatusApply true nowMs p).lastSeen = p.lastSeen
       ∧ (setOnlineStatusApply true nowMs p).username = p.username
       ∧ (setOnlineStatusApply true nowMs p).displayName = p.displayName
       ∧ (setOnlineStatusApply true nowMs p).photoURL = p.photoURL
       ∧ (setOnlineStatusApply true nowMs p).bio = p.bio
       ∧ (setOnlineStatusApply false nowMs p).lastSeen = some (.iso nowMs)
       ∧ (setOnlineStatusApply false nowMs p).isOnline = false) := by
  refine ⟨fun e p nowMs he => ?_, fun e p nowMs he => ?_, fun p nowMs => ?_⟩
  · rw [he]; rfl
  · rw [he]; rfl
  · exact ⟨rfl, rfl, rfl, rfl, rfl, rfl, rfl⟩

/-- Witness for `presenceWrite_spec`: the heartbeat write keeps
`lastSeen` and the unload write sets it, on a concrete profile. -/
theorem presenceWrite_spec_witness :
    presenceOnlineArg .heartbeat = true
  ∧ presenceOnlineArg .beforeUnload = false
  ∧ setOnlineStatusApply (presenceOnlineArg .heartbeat) 7
      ⟨"ann", "Ann", "", "", false, some (.iso 3)⟩
      = ⟨"ann", "Ann", "", "", true, some (.iso 3)⟩
  ∧ setOnlineStatusApply (presenceOnlineArg .beforeUnload) 7
      ⟨"ann", "Ann", "", "", true, some (.iso 3)⟩
      = ⟨"ann", "Ann", "", "", false, some (.iso 7)⟩ :=
  ⟨rfl, rfl,
   presenceWrite_spec.1 .heartbeat ⟨"ann", "Ann", "", "", false, some (.iso 3)⟩ 7 rfl,
   presenceWrite_spec.2.1 .beforeUnload ⟨"ann", "Ann", "", "", true, some (.iso 3)⟩ 7 rfl⟩

theorem messagesSnapshotStep_aux (uid : Option String) :
    ∀ (docs : List MsgDoc) (acc1 : List Message) (acc2 : List String),
      docs.foldl
        (fun acc d =>
          (acc.1 ++ [msgOfDoc d],
           if shouldMarkRead uid d then acc.2 ++ [d.id] else acc.2))
        (acc1, acc2)
      = (acc1 ++ docs.map msgOfDoc,
         acc2 ++ (docs.filter (shouldMarkRead uid)).map MsgDoc.id) := by
  intro docs
  induction docs with
  | nil => intro acc1 acc2; simp
  | cons d rest ih =>
    intro acc1 acc2
    by_cases h : shouldMarkRead uid d = true
    · simp only [List.foldl_cons, h, if_pos, List.filter_cons_of_pos, ih, List.map_cons]
      simp
    · rw [List.foldl_cons, if_neg h, ih, List.filter_cons_of_neg (by simpa using h)]
      simp

/-- C3. For each snapshot of a chat's messages, the callback issues the
`read: true` write exactly for the documents whose sender differs from
the signed-in user and whose `read` flag is not set — once per such
document, in snapshot order — while the loaded message list is the full
snapshot regardless; with no signed-in user no write is issued. The
write list and the loaded list are computed before any write can fail,
so a failing write alters neither. -/
theorem markRead_spec :
    (∀ (uid : String) (docs : List MsgDoc),
       (messagesSnapshotStep (some uid) docs).2
         = (docs.filter
             (fun d => decide (d.senderId ≠ uid) && !(d.readField.getD false))).map
               MsgDoc.id)
  ∧ (∀ (uid : Option String) (docs : List MsgDoc),
       (messagesSnapshotStep uid docs).1 = docs.map msgOfDoc)
  ∧ (∀ docs : List MsgDoc, (messagesSnapshotStep none docs).2 = []) := by
  refine ⟨fun uid docs => ?_, fun uid docs => ?_, fun docs => ?_⟩
  · rw [messagesSnapshotStep, messagesSnapshotStep_aux]
    rfl
  · rw [messagesSnapshotStep, messagesSnapshotStep_aux]
    simp
  · rw [messagesSnapshotStep, messagesSnapshotStep_aux]
    simp [shouldMarkRead]

theorem dayFromMs_mono {x y : Int} (h : x ≤ y) : dayFromMs x ≤ dayFromMs y :=
  Int.ediv_le_ediv (by decide) h

theorem ascending_resolve_le (msgs : List Message) (hasc : AscendingTimestamps msgs) :
    ∀ (j i : Nat) (hji : j < i) (hi : i < msgs.length),
      ∃ x y, (msgs.get ⟨j, Nat.lt_trans hji hi⟩).timestamp.resolveMs = some x
        ∧ (msgs.get ⟨i, hi⟩).timestamp.resolveMs = some y ∧ x ≤ y := by
  have hstep := List.chain'_iff_get.mp hasc
  intro j i
  induction i with
  | zero => intro hji; exact absurd hji (Nat.not_lt_zero j)
  | succ k ih =>
    intro hji hi
    rcases Nat.lt_succ_iff_lt_or_eq.mp hji with hjk | hjk
    · obtain ⟨x, y, hx, hy, hxy⟩ := ih hjk (Nat.lt_of_succ_lt hi)
      obtain ⟨y', z, hy', hz, hyz⟩ := hstep k (by omega)
      rw [hy] at hy'
      obtain rfl : y = y' := by injection hy'
      exact ⟨x, z, hx, hz, le_trans hxy hyz⟩
    · subst hjk
      obtain ⟨x, z, hx, hz, hxz⟩ := hstep j (by omega)
      exact ⟨x, z, hx, hz, hxz⟩

/-- C8. On a message sequence whose resolved timestamps ascend, the
date separator is shown at an index iff no earlier message falls on the
same resolved calendar day — i.e. exactly before the first message of
each day, in chronological order; the two-day example produces the flag
sequence `[true, false, true]`, one separator per day. -/
theorem dateSeparator_spec :
    (∀ (msgs : List Message), AscendingTimestamps msgs →
       ∀ (i : Nat) (hi : i < msgs.length),
         shouldShowDateSeparator msgs i hi = true ↔
           ∀ (j : Nat) (hj : j < i),
             msgDay (msgs.get ⟨j, Nat.lt_trans hj hi⟩) ≠ msgDay (msgs.get ⟨i, hi⟩))
  ∧ sepFlags exampleMsgs = [true, false, true] := by
  refine ⟨fun msgs hasc i hi => ?_, by decide⟩
  cases i with
  | zero =>
    constructor
    · intro _ j hj
      exact absurd hj (Nat.not_lt_zero j)
    · intro _
      rfl
  | succ k =>
    obtain ⟨w, y, hw, hy, hwy⟩ :=
      ascending_resolve_le msgs hasc k (k + 1) (Nat.lt_succ_self k) hi
    have hsepEq : shouldShowDateSeparator msgs (k + 1) hi
        = !(isSameDayOpt ((msgs.get ⟨k + 1, hi⟩).timestamp.resolveMs)
            ((msgs.get ⟨k, Nat.lt_of_succ_lt hi⟩).timestamp.resolveMs)) := rfl
    rw [hy, hw] at hsepEq
    constructor
    · intro hsep j hj
      obtain ⟨x, y', hx, hy', hxy⟩ := ascending_resolve_le msgs hasc j (k + 1) hj hi
      rw [hy] at hy'
      obtain rfl : y = y' := by injection hy'
      intro hday
      have hsame : dayFromMs x = dayFromMs y := by
        have h1 : msgDay (msgs.get ⟨j, Nat.lt_trans hj hi⟩) = some (dayFromMs x) := by
          rw [msgDay, hx]; rfl
        have h2 : msgDay (msgs.get ⟨k + 1, hi⟩) = some (dayFromMs y) := by
          rw [msgDay, hy]; rfl
        rw [h1, h2] at hday
        injection hday
      -- the previous message's day is squeezed between two equal days
      have hxle : x ≤ w := by
        rcases Nat.lt_or_ge j k with hjk | hjk
        · obtain ⟨x', w', hx', hw', hxw⟩ :=
            ascending_resolve_le msgs hasc j k hjk (Nat.lt_of_succ_lt hi)
          rw [hx] at hx'
          obtain rfl : x = x' := by injection hx'
          rw [hw] at hw'
          obtain rfl : w' = w := by injection hw' with h; exact h.symm
          exact hxw
        · have hje : j = k := by omega
          subst hje
          rw [hx] at hw
          obtain rfl : x = w := by injection hw
          exact le_refl x
      have hdw : dayFromMs x ≤ dayFromMs w := dayFromMs_mono hxle
      have hdwy : dayFromMs w ≤ dayFromMs y := dayFromMs_mono hwy
      have hwyday : dayFromMs y = dayFromMs w := by omega
      rw [hsepEq] at hsep
      simp [isSameDayOpt, hwyday] at hsep
    · intro hall
      have hday := hall k (Nat.lt_succ_self k)
      simp only [msgDay, hy, hw, Option.map_some'] at hday
      rw [hsepEq]
      simp only [isSameDayOpt, Bool.not_eq_true', decide_eq_false_iff_not]
      intro he
      exact hday (by simp [he])

/-- Witness for `dateSeparator_spec`: the separator is shown before the
third example message, the first of its day. -/
theorem dateSeparator_spec_witness :
    shouldShowDateSeparator exampleMsgs 2 (Nat.lt.base 2) = true :=
  (dateSeparator_spec.1 exampleMsgs
    (List.chain'_cons.mpr ⟨⟨100, 2000, rfl, rfl, by norm_num⟩,
      List.chain'_cons.mpr ⟨⟨2000, 86400050, rfl, rfl, by norm_num⟩,
        List.chain'_singleton _⟩⟩)
    2 (Nat.lt.base 2)).mpr (by decide)

theorem optIdxLe_refl : ∀ x, optIdxLe x x = true
  | none => rfl
  | some i => by simp [optIdxLe]

theorem searchRel_iff_keyLe (ql : String) (a b : UserSearchResult) :
    searchRel ql a b ↔ searchKeyLe (searchKey ql a) (searchKey ql b) := by
  unfold searchRel searchCmpLe searchKey searchKeyLe
  cases ha : a.isOnline <;> cases hb : b.isOnline <;> simp [ha, hb]

/-- Pushing the image of every element passing a test onto an
accumulator (the `forEach`/`push` pattern) collects exactly the
filtered, mapped list. -/
theorem foldl_push_eq_filter_map {α β : Type} (p : α → Bool) (f : α → β) :
    ∀ (l : List α) (init : List β),
      l.foldl (fun acc x => if p x then acc ++ [f x] else acc) init
        = init ++ (l.filter p).map f := by
  intro l
  induction l with
  | nil => intro init; simp
  | cons x rest ih =>
    intro init
    by_cases h : p x = true
    · rw [List.foldl_cons, if_pos h, ih, List.filter_cons_of_pos h]
      simp
    · rw [List.foldl_cons, if_neg h, ih, List.filter_cons_of_neg (by simpa using h)]

/-- A stable sort does not disturb the relative order of elements that
share a sort key: filtering the sorted list to one key value yields the
same list as filtering the input. -/
theorem insertionSort_filter_key {α κ : Type} [DecidableEq κ]
    (r : α → α → Prop) [DecidableRel r] (key : α → κ)
    (hkey : ∀ a b, key a = key b → r a b) (l : List α) (k : κ) :
    (List.insertionSort r l).filter (fun x => decide (key x = k))
      = l.filter (fun x => decide (key x = k)) := by
  have hall : ∀ x ∈ l.filter (fun x => decide (key x = k)), key x = k := by
    intro x hx
    simpa using (List.mem_filter.mp hx).2
  have hpair : (l.filter (fun x => decide (key x = k))).Pairwise r :=
    List.pairwise_of_forall_mem_list
      (fun a ha b hb => hkey a b ((hall a ha).trans (hall b hb).symm))
  have hsubsort := List.sublist_insertionSort hpair (List.filter_sublist l)
  have hBf : (l.filter (fun x => decide (key x = k))).filter
      (fun x => decide (key x = k)) = l.filter (fun x => decide (key x = k)) :=
    List.filter_eq_self.mpr (by intro a ha; simpa using hall a ha)
  have hsub2 : (l.filter (fun x => decide (key x = k))).Sublist
      ((List.insertionSort r l).filter (fun x => decide (key x = k))) := by
    have hf := hsubsort.filter (fun x => decide (key x = k))
    rwa [hBf] at hf
  have hlen : ((List.insertionSort r l).filter (fun x => decide (key x = k))).length
      = (l.filter (fun x => decide (key x = k))).length :=
    ((List.perm_insertionSort r l).filter _).length_eq
  exact (hsub2.eq_of_length hlen.symm).symm

/-- C5. The primary pass returns exactly the fetched users (the
`username >= ql` range query, username-ordered, capped at 10) whose
username contains the normalized query and whose id differs from the
signed-in user; for query `"ann"` against `{anna, anne, banner, zane}`
the search returns `anna` and `anne` (with `banner` matched by the
primary pass itself, so the fallback never runs for it), and the
signed-in user's own document is excluded even when the query equals
their username exactly. -/
theorem searchPrimary_spec :
    (∀ (uid ql : String) (store : List UserDoc),
       primaryPass uid ql store
         = ((usernameGeQuery ql store).filter
             (fun d => decide (d.id ≠ uid) && strContainsSub ql d.username)).map
               mkSearchResult)
  ∧ (handleSearch "me" "ann" demoUsers).map UserSearchResult.username
      = ["anna", "anne", "banner"]
  ∧ handleSearch "u-anna" "anna" demoUsers = [] := by
  refine ⟨fun uid ql store => ?_, by decide, by decide⟩
  rw [primaryPass, foldl_push_eq_filter_map]
  simp

/-- C6. The ranking sort permutes the results so that the keys
(online-state first — online before offline — then ascending index of
the first substring match) are non-decreasing, and results with equal
keys keep their arrival order (filtering to any one key value is
unchanged by the sort); on the example the two online users come first
in match-index order and the tied offline pair keeps its arrival
order. -/
theorem searchRanking_spec :
    (∀ (ql : String) (l : List UserSearchResult), List.Perm (rankResults ql l) l)
  ∧ (∀ (ql : String) (l : List UserSearchResult),
       (rankResults ql l).Pairwise
         (fun a b => searchKeyLe (searchKey ql a) (searchKey ql b)))
  ∧ (∀ (ql : String) (l : List UserSearchResult) (k : Nat × Option Nat),
       (rankResults ql l).filter (fun x => decide (searchKey ql x = k))
         = l.filter (fun x => decide (searchKey ql x = k)))
  ∧ (rankResults "ann" rankExample).map UserSearchResult.uid
      = ["r3", "r2", "r1", "r4"] := by
  refine ⟨fun ql l => List.perm_insertionSort _ l, fun ql l => ?_, fun ql l k => ?_,
    by decide⟩
  · exact (List.sorted_insertionSort (searchRel ql) l).imp
      (fun hab => (searchRel_iff_keyLe ql _ _).mp hab)
  · exact insertionSort_filter_key (searchRel ql) (searchKey ql)
      (fun a b hab => by
        rw [searchRel_iff_keyLe]
        exact .inr ⟨congrArg Prod.fst hab, by rw [show (searchKey ql a).2 = (searchKey ql b).2 from congrArg Prod.snd hab]; exact optIdxLe_refl _⟩)
      l k

theorem revertMessages_eq_self {ms : List Message} (u mt : String) (now : Int)
    (h : ∀ m ∈ ms, m.id ≠ tempMsgId now) :
    revertMessages u mt now ms = ms := by
  rw [revertMessages, sentMessages, List.filter_append]
  have h1 : ms.filter (fun m => decide (m.id ≠ (optimisticMessage u mt now).id)) = ms :=
    List.filter_eq_self.mpr (fun m hm => by
      show decide (m.id ≠ tempMsgId now) = true
      simpa using h m hm)
  have h2 : [optimisticMessage u mt now].filter
      (fun m => decide (m.id ≠ (optimisticMessage u mt now).id)) = [] := by simp
  rw [h1, h2, List.append_nil]

/-- C4. When the backend message write of a send fails — whether the
chat already existed (the write is the first backend call) or was just
created (the second) — the final component state has the optimistic
temporary message removed, so the visible list is the list from before
the send, and the input field restored to the submitted trimmed text,
with `isSending` lowered. -/
theorem optimisticRevert_spec (env : SendEnv) (st : ChatWinState) (u : String)
    (hu : env.currentUser = some u)
    (hne : ¬ strTrim st.newMessage = "")
    (hsending : st.isSending = false)
    (hfresh : ∀ m ∈ st.messages, m.id ≠ tempMsgId env.now) :
    (∀ cid, env.chatId = some cid →
       (handleSend env (some 0) st).final st
         = ⟨st.messages, strTrim st.newMessage, false⟩)
  ∧ (∀ rid, env.chatId = none → env.recipientId = some rid →
       (handleSend env (some 1) st).final st
         = ⟨st.messages, strTrim st.newMessage, false⟩) := by
  rcases env with ⟨ecid, erid, eu, enow, enewid⟩
  simp only [SendEnv.currentUser] at hu
  subst hu
  simp only [SendEnv.now] at hfresh
  have hguard : ¬(strTrim st.newMessage = "" ∨ st.isSending = true) := by
    simp [hne, hsending]
  have hrevert : revertMessages u (strTrim st.newMessage) enow st.messages = st.messages :=
    revertMessages_eq_self u (strTrim st.newMessage) enow hfresh
  constructor
  · intro cid hcid
    simp only [SendEnv.chatId] at hcid
    subst hcid
    have e1 : handleSend ⟨some cid, erid, some u, enow, enewid⟩ (some 0) st
        = handleSendCore u (strTrim st.newMessage) enow
            { st with newMessage := "" } { st with newMessage := "", isSending := true }
            cid [] (some 0) := by
      show (if (strTrim st.newMessage = "" ∨ st.isSending = true)
          then (⟨[], []⟩ : SendResult) else _) = _
      rw [if_neg hguard]
    rw [e1]
    show ({ messages := revertMessages u (strTrim st.newMessage) enow st.messages,
            newMessage := strTrim st.newMessage, isSending := false } : ChatWinState) = _
    rw [hrevert]
  · intro rid hcid hrid
    simp only [SendEnv.chatId] at hcid
    simp only [SendEnv.recipientId] at hrid
    subst hcid
    subst hrid
    have e1 : handleSend ⟨none, some rid, some u, enow, enewid⟩ (some 1) st
        = handleSendCore u (strTrim st.newMessage) enow
            { st with newMessage := "" } { st with newMessage := "", isSending := true }
            enewid [StoreOp.createChat enewid [u, rid]] (some 0) := by
      show (if (strTrim st.newMessage = "" ∨ st.isSending = true)
          then (⟨[], []⟩ : SendResult) else _) = _
      rw [if_neg hguard]
      rfl
    rw [e1]
    show ({ messages := revertMessages u (strTrim st.newMessage) enow st.messages,
            newMessage := strTrim st.newMessage, isSending := false } : ChatWinState) = _
    rw [hrevert]

/-- Witness for `optimisticRevert_spec`: a failing message write on a
concrete send reverts the visible list and restores the trimmed input. -/
theorem optimisticRevert_spec_witness :
    (handleSend ⟨some "c1", some "B", some "A", 5, "nc"⟩ (some 0)
        ⟨[], " hi ", false⟩).final ⟨[], " hi ", false⟩
      = ⟨[], "hi", false⟩ := by
  have h := (optimisticRevert_spec ⟨some "c1", some "B", some "A", 5, "nc"⟩
    ⟨[], " hi ", false⟩ "A" rfl (by decide) rfl (by intro m hm; simp at hm)).1 "c1" rfl
  exact h.trans (by decide)

theorem handleSendCore_temp_bound (u mt : String) (now : Int) (st1 st2 : ChatWinState)
    (cid : String) (created : List StoreOp) (failAt : Option Nat)
    (h1 : st1.messages.countP isTempMsg = 0) (h2 : st2.messages.countP isTempMsg = 0) :
    ∀ s ∈ (handleSendCore u mt now st1 st2 cid created failAt).states,
      s.messages.countP isTempMsg ≤ 1 := by
  have hsent : (sentMessages u mt now st2.messages).countP isTempMsg ≤ 1 := by
    rw [sentMessages, List.countP_append, h2]
    cases hb : isTempMsg (optimisticMessage u mt now) <;>
      simp [List.countP_cons, hb]
  have hrev : (revertMessages u mt now st2.messages).countP isTempMsg ≤ 1 :=
    le_trans (by rw [revertMessages]; exact (List.filter_sublist _).countP_le _) hsent
  intro s hs
  rw [handleSendCore] at hs
  split at hs
  · simp only [List.mem_cons, List.not_mem_nil, or_false] at hs
    rcases hs with rfl | rfl | rfl | rfl | rfl | rfl
    · omega
    · omega
    · exact hsent
    · exact hrev
    · exact hrev
    · exact hrev
  · split at hs
    · simp only [List.mem_cons, List.not_mem_nil, or_false] at hs
      rcases hs with rfl | rfl | rfl | rfl | rfl | rfl
      · omega
      · omega
      · exact hsent
      · exact hrev
      · exact hrev
      · exact hrev
    · simp only [List.mem_cons, List.not_mem_nil, or_false] at hs
      rcases hs with rfl | rfl | rfl | rfl | rfl
      · omega
      · omega
      · exact hsent
      · exact hrev
      · exact hrev

/-- C10. A send invocation that finds `isSending` raised returns before
any state update or backend write (its final state is the entry state),
and during a send started from a list with no optimistic temporary
message every intermediate state shows at most one temporary message —
so at most one optimistic message from the sender is ever visible. -/
theorem singleFlight_spec (env : SendEnv) (failAt : Option Nat) (st : ChatWinState) :
    (st.isSending = true →
       handleSend env failAt st = ⟨[], []⟩ ∧ (handleSend env failAt st).final st = st)
  ∧ (st.messages.countP isTempMsg = 0 →
       ∀ s ∈ (handleSend env failAt st).states, s.messages.countP isTempMsg ≤ 1) := by
  rcases env with ⟨ecid, erid, eu, enow, enewid⟩
  constructor
  · intro hbusy
    cases eu with
    | none => exact ⟨rfl, rfl⟩
    | some u =>
      have hrun : handleSend ⟨ecid, erid, some u, enow, enewid⟩ failAt st = ⟨[], []⟩ := by
        show (if (strTrim st.newMessage = "" ∨ st.isSending = true)
            then (⟨[], []⟩ : SendResult) else _) = _
        rw [if_pos (Or.inr hbusy)]
      exact ⟨hrun, by rw [hrun]; rfl⟩
  · intro h0
    cases eu with
    | none => intro s hs; simp [handleSend] at hs
    | some u =>
      by_cases hguard : (strTrim st.newMessage = "" ∨ st.isSending = true)
      · intro s hs
        have hrun : handleSend ⟨ecid, erid, some u, enow, enewid⟩ failAt st = ⟨[], []⟩ := by
          show (if (strTrim st.newMessage = "" ∨ st.isSending = true)
              then (⟨[], []⟩ : SendResult) else _) = _
          rw [if_pos hguard]
        rw [hrun] at hs
        simp at hs
      · have h1 : ({ st with newMessage := "" } : ChatWinState).messages.countP isTempMsg = 0 := h0
        have h2 : ({ st with newMessage := "", isSending := true } :
            ChatWinState).messages.countP isTempMsg = 0 := h0
        have hfil : (st.messages.filter
            (fun m => decide (m.id ≠ tempMsgId enow))).countP isTempMsg ≤ 1 := by
          have := (List.filter_sublist (p := fun m => decide (m.id ≠ tempMsgId enow))
            st.messages).countP_le isTempMsg
          omega
        intro s hs
        cases ecid with
        | some cid =>
          have e1 : handleSend ⟨some cid, erid, some u, enow, enewid⟩ failAt st
              = handleSendCore u (strTrim st.newMessage) enow
                  { st with newMessage := "" } { st with newMessage := "", isSending := true }
                  cid [] failAt := by
            show (if (strTrim st.newMessage = "" ∨ st.isSending = true)
                then (⟨[], []⟩ : SendResult) else _) = _
            rw [if_neg hguard]
          rw [e1] at hs
          exact handleSendCore_temp_bound u (strTrim st.newMessage) enow _ _ cid [] failAt
            h1 h2 s hs
        | none =>
          cases erid with
          | some rid =>
            by_cases hf : failAt = some 0
            · subst hf
              have e1 : handleSend ⟨none, some rid, some u, enow, enewid⟩ (some 0) st
                  = ⟨[{ st with newMessage := "" },
                      { st with newMessage := "", isSending := true },
                      { st with
                        messages := st.messages.filter
                          (fun m => decide (m.id ≠ tempMsgId enow))
                        newMessage := ""
                        isSending := true },
                      { st with
                        messages := st.messages.filter
                          (fun m => decide (m.id ≠ tempMsgId enow))
                        newMessage := strTrim st.newMessage
                        isSending := true },
                      { st with
                        messages := st.messages.filter
                          (fun m => decide (m.id ≠ tempMsgId enow))
                        newMessage := strTrim st.newMessage
                        isSending := false }], []⟩ := by
                show (if (strTrim st.newMessage = "" ∨ st.isSending = true)
                    then (⟨[], []⟩ : SendResult) else _) = _
                rw [if_neg hguard]
                rfl
              rw [e1] at hs
              simp only [List.mem_cons, List.not_mem_nil, or_false] at hs
              rcases hs with rfl | rfl | rfl | rfl | rfl
              · show st.messages.countP isTempMsg ≤ 1
                omega
              · show st.messages.countP isTempMsg ≤ 1
                omega
              · exact hfil
              · exact hfil
              · exact hfil
            · have e1 : handleSend ⟨none, some rid, some u, enow, enewid⟩ failAt st
                  = handleSendCore u (strTrim st.newMessage) enow
                      { st with newMessage := "" }
                      { st with newMessage := "", isSending := true }
                      enewid [StoreOp.createChat enewid [u, rid]] (failAt.map (· - 1)) := by
                show (if (strTrim st.newMessage = "" ∨ st.isSending = true)
                    then (⟨[], []⟩ : SendResult) else _) = _
                rw [if_neg hguard]
                rw [if_neg hf]
              rw [e1] at hs
              exact handleSendCore_temp_bound u (strTrim st.newMessage) enow _ _ enewid
                [StoreOp.createChat enewid [u, rid]] (failAt.map (· - 1)) h1 h2 s hs
          | none =>
            have e1 : handleSend ⟨none, none, some u, enow, enewid⟩ failAt st
                = ⟨[{ st with newMessage := "" },
                    { st with newMessage := "", isSending := true },
                    { st with newMessage := "", isSending := false }], []⟩ := by
              show (if (strTrim st.newMessage = "" ∨ st.isSending = true)
                  then (⟨[], []⟩ : SendResult) else _) = _
              rw [if_neg hguard]
            rw [e1] at hs
            simp only [List.mem_cons, List.not_mem_nil, or_false] at hs
            rcases hs with rfl | rfl | rfl <;>
              · show st.messages.countP isTempMsg ≤ 1
                omega

/-- Witness for `singleFlight_spec`: with `isSending` raised a concrete
invocation performs no update and no write, and a mid-send state of a
concrete send shows exactly one temporary message, within the bound. -/
theorem singleFlight_spec_witness :
    handleSend ⟨some "c", some "B", some "A", 3, "n"⟩ none ⟨[], "x", true⟩ = ⟨[], []⟩
  ∧ ([optimisticMessage "A" "hi" 3].countP isTempMsg ≤ 1) :=
  ⟨((singleFlight_spec ⟨some "c", some "B", some "A", 3, "n"⟩ none ⟨[], "x", true⟩).1 rfl).1,
   (singleFlight_spec ⟨some "c", some "B", some "A", 3, "n"⟩ none ⟨[], "hi", false⟩).2 rfl
     ⟨[optimisticMessage "A" "hi" 3], "", true⟩ (by decide)⟩

/-- `createOrGetChat` is the lookup-then-create path: on a store with no
chat for the pair it creates exactly one chat document, and a repeat
call finds that document and returns the same id without creating a
second one. (The send path in the chat window does not go through this
function.) -/
theorem createOrGetChat_creates_then_reuses (me other : String) (store : List ChatDoc)
    (fid fid2 : String) (n n2 : Int)
    (hnone : ∀ c ∈ store, ¬(me ∈ c.participants ∧ other ∈ c.participants)) :
    (createOrGetChat me other store fid n).1 = fid
  ∧ (createOrGetChat me other store fid n).2
      = store ++ [⟨fid, [me, other], .iso n, .iso n, none⟩]
  ∧ createOrGetChat me other (store ++ [⟨fid, [me, other], .iso n, .iso n, none⟩]) fid2 n2
      = (fid, store ++ [⟨fid, [me, other], .iso n, .iso n, none⟩]) := by
  have hfind : (store.filter (fun c => decide (me ∈ c.participants))).find?
      (fun c => decide (other ∈ c.participants)) = none := by
    rw [List.find?_eq_none]
    intro c hc
    have hcm := List.mem_filter.mp hc
    simp only [decide_eq_true_eq] at hcm ⊢
    intro hother
    exact hnone c hcm.1 ⟨hcm.2, hother⟩
  refine ⟨?_, ?_, ?_⟩
  · rw [createOrGetChat, hfind]
  · rw [createOrGetChat, hfind]
  · rw [createOrGetChat, List.filter_append, List.find?_append, hfind]
    simp

/-- C1 (failing evaluation). Each of the two sends does create exactly
one chat document before its message write — but the second send to the
same recipient creates a second chat document for the pair `{A, B}`
instead of reusing `chat1`, because the id adopted inside `handleSend`
never reaches the `chatId` prop: after the two sends the backend holds
two chat creations for one unordered participant pair. -/
theorem duplicateChat_bug :
    (dupFirstSend.ops ++ dupSecondSend.ops).countP (isCreateForPair "A" "B") = 2
  ∧ dupFirstSend.ops
      = [.createChat "chat1" ["A", "B"], .addMessage "chat1" "A" "hi",
         .setLastMessage "chat1" "hi" "A"]
  ∧ dupSecondSend.ops
      = [.createChat "chat2" ["A", "B"], .addMessage "chat2" "A" "again",
         .setLastMessage "chat2" "again" "A"] := by
  refine ⟨?_, ?_, ?_⟩ <;> decide

end Tomodachi
